import Mathlib

/-!
# mimirtool `config convert`: input loading, notice rendering and output dispatch

A shallow embedding of `pkg/mimirtool/commands/config.go`.

* Go strings and byte slices are sequences of bytes (`GoString`).
* Every call that leaves the process (reading a file, opening a file, writing to
  a file or stream, closing a file, calling the conversion engine) appends one
  `Event` to a chronological trace.  The outcome of such a call is decided by an
  `Env`, an oracle that may look at the whole trace so far, so that every
  filesystem state and every combination of outcomes is covered.
* `defer` is modelled by running the deferred closure on the trace that the rest
  of the function body produced.
-/

namespace Mimirtool

set_option maxRecDepth 8000

/-! ## Strings -/

abbrev Byte := UInt8

/-- A Go `string` (and a `[]byte`): an arbitrary sequence of bytes. -/
abbrev GoString := List Byte

/-- A Go string literal: the UTF-8 bytes of the text. -/
def str (s : String) : GoString := s.toUTF8.data.toList

/-- The byte `'\n'`. -/
def nl : Byte := 10

/-- Go `strings.Index(s, sep)` for a separator of one byte: the position of the
first occurrence, `none` for Go's `-1`. -/
def stringsIndex : GoString → Byte → Option Nat
  | [], _ => none
  | b :: rest, sep => if b = sep then some 0 else (stringsIndex rest sep).map (· + 1)

/-- Go `strings.Count(s, sep)` for a separator of one byte. -/
def stringsCount : GoString → Byte → Nat
  | [], _ => 0
  | b :: rest, sep => (if b = sep then 1 else 0) + stringsCount rest sep

/-- The loop of Go `strings.genSplit` (`for i < n { m := Index(s, sep); if m < 0
{ break }; a[i] = s[:m]; s = s[m+len(sep):]; i++ }; a[i] = s`), for a separator
of one byte.  The first argument is `n - i`, the iterations left. -/
def genSplitLoop (sep : Byte) : Nat → GoString → List GoString → List GoString
  | 0, s, a => a ++ [s]
  | k + 1, s, a =>
    match stringsIndex s sep with
    | none => a ++ [s]
    | some m => genSplitLoop sep k (s.drop (m + 1)) (a ++ [s.take m])

/-- Go `strings.Split(s, sep)` for a separator of one byte: `genSplit` with
`n = Count(s, sep) + 1`, whose loop runs while `i < n - 1`. -/
def stringsSplit (s : GoString) (sep : Byte) : List GoString :=
  genSplitLoop sep (stringsCount s sep) s []

/-- Go `strings.Join(elems, sep)` for a separator of one byte: nothing for no
element, else the first element followed by `sep` and the element, for each
further element. -/
def stringsJoin (elems : List GoString) (sep : Byte) : GoString :=
  match elems with
  | [] => []
  | e :: rest => rest.foldl (fun b s => b ++ [sep] ++ s) e

/-! ## Errors -/

/-- A Go `error` value other than a multi-error. -/
inductive Err where
  /-- an error returned by the operating system (`*fs.PathError`); `notExist`
  says whether `errors.Is(err, fs.ErrNotExist)` holds for it -/
  | sys (msg : GoString) (notExist : Bool)
  /-- the error of `errors.New(msg)` -/
  | new (msg : GoString)
  /-- the error of `errors.Wrap(cause, msg)` -/
  | wrap (cause : Err) (msg : GoString)
  /-- the error `io.ErrShortWrite` -/
  | shortWrite
  deriving DecidableEq, Repr

/-- The method `Error()`. -/
def Err.Error : Err → GoString
  | .sys msg _ => msg
  | .new msg => msg
  | .wrap cause msg => msg ++ str ": " ++ cause.Error
  | .shortWrite => str "short write"

/-- The test `errors.Is(err, fs.ErrNotExist)`: it follows the chain of wrapped
causes. -/
def Err.isNotExist : Err → Bool
  | .sys _ notExist => notExist
  | .new _ => false
  | .wrap cause _ => cause.isNotExist
  | .shortWrite => false

/-- The test `errors.Is(err, fs.ErrNotExist)` on a possibly nil error. -/
def errorsIsNotExist (err : Option Err) : Bool :=
  match err with
  | none => false
  | some e => e.isNotExist

/-- The call `errors.Wrap(err, msg)` of pkg/errors: nil for a nil error. -/
def errorsWrap (err : Option Err) (msg : GoString) : Option Err :=
  match err with
  | none => none
  | some e => some (.wrap e msg)

/-- A non-nil value of the interface `error` as `output` and `convertConfig`
return it: one error, or dskit's `nonNilMultiError`, the list of merged errors. -/
inductive GoError where
  | plain (e : Err)
  | multi (es : List Err)
  deriving DecidableEq, Repr

/-- dskit `multierror.New(errs...)`: `Add` skips the nil errors and appends the
others in order.  (The errors given here come from `(*os.File).Write` and
`bytes.Buffer.WriteTo`, none is itself a multi-error.) -/
def multierrorNew (errs : List (Option Err)) : List Err :=
  errs.foldl (fun merr e => match e with
    | none => merr
    | some err => merr ++ [err]) []

/-- dskit `MultiError.Err()`: nil when there is no error, else the
`nonNilMultiError`. -/
def multierrorErr (es : List Err) : Option GoError :=
  if es.length = 0 then none else some (.multi es)

/-! ## The outside world -/

/-- The destination behind an `io.Writer` of this program: always an `*os.File`. -/
inductive Writer where
  | stdout
  | stderr
  | file (fd : Nat)
  deriving DecidableEq, Repr

/-- One call that leaves the process. -/
inductive Event where
  /-- a call of `os.ReadFile(name)` -/
  | readFile (name : GoString)
  /-- a call of `config.Convert(yaml, flags, ...)` -/
  | convert (yaml : GoString) (flags : List GoString)
  /-- a call of `os.OpenFile(path, O_TRUNC|O_CREATE|O_WRONLY, 0666)`; `fd` is
  the file it returned, `none` when it failed -/
  | openFile (path : GoString) (fd : Option Nat)
  /-- a call of `w.Write(p)`, of which the destination took the first `n` bytes -/
  | write (w : Writer) (p : GoString) (n : Nat)
  /-- a call of `Close()` on the file `fd` -/
  | close (fd : Nat)
  deriving DecidableEq, Repr

/-- The calls made so far, oldest first. -/
abbrev Trace := List Event

/-- The outcome of each call to the operating system, given the calls made
before it. -/
structure Env where
  /-- the content of the file, or the error of `os.ReadFile` -/
  readFile : Trace → GoString → Except Err GoString
  /-- the error of `os.OpenFile`, `none` when the file was opened -/
  openFile : Trace → GoString → Option Err
  /-- the failure of a `Write`: the number of bytes taken and the error, `none`
  when the destination took the whole buffer -/
  write : Trace → Writer → GoString → Option (Nat × Err)
  /-- the error of `Close`, `none` when it succeeded -/
  close : Trace → Nat → Option Err

/-- Go `os.ReadFile(name)`: the content and a nil error, or no content and the
error. -/
def osReadFile (env : Env) (name : GoString) (t : Trace) :
    (GoString × Option Err) × Trace :=
  match env.readFile t name with
  | .ok data => ((data, none), t ++ [.readFile name])
  | .error err => (([], some err), t ++ [.readFile name])

/-- Go `(*os.File).Write(p)`: returns the number of bytes written, at most
`len(p)`, and a non-nil error whenever that number is not `len(p)`. -/
def fileWrite (env : Env) (w : Writer) (p : GoString) (t : Trace) :
    (Nat × Option Err) × Trace :=
  match env.write t w p with
  | none => ((p.length, none), t ++ [.write w p p.length])
  | some (n, err) => ((min n p.length, some err), t ++ [.write w p (min n p.length)])

/-- Go `fmt.Fprintln(w, s)`: one `Write` of `s` followed by a newline. -/
def fmtFprintln (env : Env) (w : Writer) (s : GoString) (t : Trace) :
    (Nat × Option Err) × Trace :=
  fileWrite env w (s ++ [nl]) t

/-- Go `fmt.Fprint(w, err)`: one `Write` of `err.Error()`. -/
def fmtFprint (env : Env) (w : Writer) (err : Err) (t : Trace) :
    (Nat × Option Err) × Trace :=
  fileWrite env w err.Error t

/-- Go `(*bytes.Buffer).WriteTo(w)`: when the buffer is not empty, one `Write`
of the whole buffer, and `io.ErrShortWrite` when the writer took fewer bytes
without an error; when the buffer is empty, no `Write` at all. -/
def bufferWriteTo (env : Env) (buf : GoString) (w : Writer) (t : Trace) :
    (Nat × Option Err) × Trace :=
  if buf.length > 0 then
    match fileWrite env w buf t with
    | ((m, some e), t1) => ((m, some e), t1)
    | ((m, none), t1) =>
      if m ≠ buf.length then ((m, some .shortWrite), t1) else ((m, none), t1)
  else ((0, none), t)

/-! ## The command -/

/-- The struct `ConfigCommand`. -/
structure ConfigCommand where
  yamlFile : GoString
  flagsFile : GoString
  outYAMLFile : GoString
  outFlagsFile : GoString
  outNoticesFile : GoString
  deriving DecidableEq, Repr

/-- Modelled from the spec: the type of an entry of `ChangedDefaults` in
`config.ConversionNotices` (package `pkg/mimirtool/config`), a
`DefaultChange { path, oldDefault, newDefault }` of strings, with the field
names `config.go` reads. -/
structure ChangedDefault where
  Path : GoString
  OldDefault : GoString
  NewDefault : GoString
  deriving DecidableEq, Repr

/-- Modelled from the spec: the type `config.ConversionNotices` (package
`pkg/mimirtool/config`), the NoticeSet of three ordered sequences, with the
field names `config.go` reads. -/
structure ConversionNotices where
  RemovedParameters : List GoString
  RemovedCLIFlags : List GoString
  ChangedDefaults : List ChangedDefault
  deriving DecidableEq, Repr

/-- The method `ConfigCommand.prepareInputs`; Go's three results are the triple. -/
def prepareInputs (env : Env) (c : ConfigCommand) (t : Trace) :
    (GoString × List GoString × Option Err) × Trace :=
  if c.flagsFile = [] ∧ c.yamlFile = [] then
    (([], [], some (.new (str "provide at least one of --config-file or --flags-file"))), t)
  else
    match osReadFile env c.yamlFile t with
    | ((yamlContents, err), t1) =>
      if err ≠ none ∧ errorsIsNotExist err = false then
        (([], [], errorsWrap err (str "could not read config-file")), t1)
      else
        match osReadFile env c.flagsFile t1 with
        | ((flagsContents, err), t2) =>
          if err ≠ none ∧ errorsIsNotExist err = false then
            (([], [], errorsWrap err (str "could not read flags-file")), t2)
          else
            let flags : List GoString :=
              if flagsContents.length > 1 then stringsSplit flagsContents nl else []
            ((yamlContents, flags, none), t2)

/-- The text one entry of `ChangedDefaults` adds to the buffer in
`writeNotices`: the body of the third loop. -/
def changedDefaultLine (d : ChangedDefault) : GoString :=
  let oldDefault := d.OldDefault
  let newDefault := d.NewDefault
  let newDefault := if newDefault = [] then str "<empty>" else newDefault
  let oldDefault := if oldDefault = [] then str "<empty>" else oldDefault
  str "using a new default for " ++ d.Path ++ str ": " ++ newDefault ++
    str " (used to be " ++ oldDefault ++ str ")\n"

/-- The buffer `noticesOut` of `writeNotices` after its three loops. -/
def noticesBuffer (notices : ConversionNotices) : GoString :=
  let noticesOut : GoString := []
  let noticesOut := notices.RemovedParameters.foldl
    (fun buf p => buf ++ (str "field " ++ p ++ str " is no longer supported\n")) noticesOut
  let noticesOut := notices.RemovedCLIFlags.foldl
    (fun buf f => buf ++ (str "flag -" ++ f ++ str " is no longer supported\n")) noticesOut
  let noticesOut := notices.ChangedDefaults.foldl
    (fun buf d => buf ++ changedDefaultLine d) noticesOut
  noticesOut

/-- The method `ConfigCommand.writeNotices`. -/
def writeNotices (env : Env) (notices : ConversionNotices) (w : Writer) (t : Trace) :
    Option Err × Trace :=
  match bufferWriteTo env (noticesBuffer notices) w t with
  | ((_, err), t1) => (err, t1)

/-- The closure `closeFn` of `openFile`: close the file and print a close error
on `os.Stderr`, ignoring the result of the print. -/
def closeFn (env : Env) (fd : Nat) (t : Trace) : Trace :=
  match env.close t fd with
  | none => t ++ [.close fd]
  | some err => (fmtFprint env .stderr err (t ++ [.close fd])).2

/-- The closure `openFile` of `output`: the default writer and a close function
that does nothing for the empty path, else the opened file (named by the
number of calls made before it) and its `closeFn`, or the wrapped error. -/
def openFile (env : Env) (path : GoString) (defaultWriter : Writer) (t : Trace) :
    Except Err (Writer × (Trace → Trace)) × Trace :=
  if path = [] then (.ok (defaultWriter, fun t => t), t)
  else
    match env.openFile t path with
    | some err =>
      (.error (.wrap err (str "could not open " ++ path)), t ++ [.openFile path none])
    | none => (.ok (.file t.length, closeFn env t.length), t ++ [.openFile path (some t.length)])

/-- The method `ConfigCommand.output`.  Each `defer closeFile()` runs its
closure after the rest of the body, the last deferred first. -/
def output (env : Env) (c : ConfigCommand) (yamlContents : GoString) (flags : List GoString)
    (notices : ConversionNotices) (t : Trace) : Option GoError × Trace :=
  match openFile env c.outYAMLFile .stdout t with
  | (.error err, t1) => (some (.plain err), t1)
  | (.ok (outYAMLWriter, closeYAML), t1) =>
    let rest1 : Option GoError × Trace :=
      match openFile env c.outFlagsFile .stdout t1 with
      | (.error err, t2) => (some (.plain err), t2)
      | (.ok (outFlagsWriter, closeFlags), t2) =>
        let rest2 : Option GoError × Trace :=
          match openFile env c.outNoticesFile .stderr t2 with
          | (.error err, t3) => (some (.plain err), t3)
          | (.ok (outNoticesWriter, closeNotices), t3) =>
            let r1 := fmtFprintln env outYAMLWriter yamlContents t3
            let r2 := fmtFprintln env outFlagsWriter (stringsJoin flags nl) r1.2
            let r3 := writeNotices env notices outNoticesWriter r2.2
            (multierrorErr (multierrorNew [r1.1.2, r2.1.2, r3.1]), closeNotices r3.2)
        (rest2.1, closeFlags rest2.2)
    (rest1.1, closeYAML rest1.2)

/-- The method `ConfigCommand.convertConfig`.  `Convert` is `config.Convert`
applied to `config.CortexToMimirMapper`, `config.DefaultCortexConfig` and
`config.DefaultMimirConfig` (package `pkg/mimirtool/config`). -/
def convertConfig (env : Env)
    (Convert : GoString → List GoString →
      Except Err (GoString × List GoString × ConversionNotices))
    (c : ConfigCommand) (t : Trace) : Option GoError × Trace :=
  match prepareInputs env c t with
  | ((_, _, some err), t1) => (some (.plain err), t1)
  | ((yamlContents, flagsFlags, none), t1) =>
    match Convert yamlContents flagsFlags with
    | .error err =>
      (some (.plain (.wrap err (str "could not convert configuration"))),
        t1 ++ [.convert yamlContents flagsFlags])
    | .ok (convertedYAML, flagsFlags2, notices) =>
      output env c convertedYAML flagsFlags2 notices (t1 ++ [.convert yamlContents flagsFlags])

/-! ## Observations on a trace -/

/-- What the destination `w` received: the bytes it took, over all writes to it. -/
def received (w : Writer) (t : Trace) : GoString :=
  t.flatMap (fun ev => match ev with
    | .write w2 p n => if w2 = w then p.take n else []
    | _ => [])

/-- The writes of a trace: destination and buffer of each `Write`, in order. -/
def writesOf (t : Trace) : List (Writer × GoString) :=
  t.filterMap (fun ev => match ev with
    | .write w p _ => some (w, p)
    | _ => none)

/-- The files a trace opened, in order. -/
def openedFds (t : Trace) : List Nat :=
  t.filterMap (fun ev => match ev with
    | .openFile _ (some fd) => some fd
    | _ => none)

/-- The paths a trace tried to open, in order. -/
def openAttempts (t : Trace) : List GoString :=
  t.filterMap (fun ev => match ev with
    | .openFile path _ => some path
    | _ => none)

/-- The files a trace closed, in order. -/
def closedFds (t : Trace) : List Nat :=
  t.filterMap (fun ev => match ev with
    | .close fd => some fd
    | _ => none)

/-- How many bytes of `p` a `Write` to `w` takes after the calls `t`. -/
def accepted (env : Env) (t : Trace) (w : Writer) (p : GoString) : Nat :=
  match env.write t w p with
  | none => p.length
  | some (n, _) => min n p.length

/-- The error of a `Write` of `p` to `w` after the calls `t`, `none` for success. -/
def writeError (env : Env) (t : Trace) (w : Writer) (p : GoString) : Option Err :=
  match env.write t w p with
  | none => none
  | some (_, err) => some err

/-- What `closeFn` prints for the file `fd` closed after the calls `t`: nothing
when the close succeeds, else the error, in one `Write` to `os.Stderr`. -/
def closeDiag (env : Env) (fd : Nat) (t : Trace) : Trace :=
  match env.close t fd with
  | none => []
  | some err => [.write .stderr err.Error (accepted env (t ++ [.close fd]) .stderr err.Error)]

/-- Whether an event is the close of a file. -/
def Event.isClose : Event → Bool
  | .close _ => true
  | _ => false

/-- Whether an event is a write to `os.Stderr`. -/
def Event.isStderrWrite : Event → Bool
  | .write .stderr _ _ => true
  | _ => false

/-- The lines of a text: its pieces between newlines, without the piece after
the last newline. -/
def linesOf (s : GoString) : List GoString :=
  (List.splitOn nl s).dropLast

/-! ## Sample worlds and inputs -/

/-- A world with no file to read, in which every open, write and close succeeds. -/
def envQuiet : Env where
  readFile := fun _ _ => .error (.sys (str "no such file or directory") true)
  openFile := fun _ _ => none
  write := fun _ _ _ => none
  close := fun _ _ => none

/-- A world in which no file can be opened for writing and every read is
refused, while every write to a stream succeeds. -/
def envDenied : Env where
  readFile := fun _ _ => .error (.sys (str "permission denied") false)
  openFile := fun _ _ => some (.sys (str "permission denied") false)
  write := fun _ _ _ => none
  close := fun _ _ => none

/-- A world in which every write to a file and every close fails, and the flags
file holds one flag and a final newline. -/
def envFull : Env where
  readFile := fun _ name =>
    if name = str "flags.txt" then .ok (str "-a=1\n")
    else .error (.sys (str "no such file or directory") true)
  openFile := fun _ _ => none
  write := fun _ w _ =>
    match w with
    | .file _ => some (0, .sys (str "no space left on device") false)
    | _ => none
  close := fun _ _ => some (.sys (str "input/output error") false)

/-- A world in which only the file `out.flags` cannot be opened. -/
def envFlagsOutDenied : Env where
  readFile := fun _ _ => .error (.sys (str "no such file or directory") true)
  openFile := fun _ path =>
    if path = str "out.flags" then some (.sys (str "permission denied") false) else none
  write := fun _ _ _ => none
  close := fun _ _ => none

/-- The notices of a conversion that removed the field `foo`. -/
def noticesFoo : ConversionNotices :=
  { RemovedParameters := [str "foo"], RemovedCLIFlags := [], ChangedDefaults := [] }

/-- One notice of each kind, the changed default with no old and no new value. -/
def noticesOneEach : ConversionNotices :=
  { RemovedParameters := [str "foo"], RemovedCLIFlags := [str "bar"],
    ChangedDefaults := [{ Path := str "baz", OldDefault := [], NewDefault := [] }] }

/-- One notice of each kind, the removed parameter with a newline in its name. -/
def noticesMultiline : ConversionNotices :=
  { RemovedParameters := [str "a\nb"], RemovedCLIFlags := [str "bar"],
    ChangedDefaults := [{ Path := str "baz", OldDefault := [], NewDefault := [] }] }

/-- A command that reads `flags.txt` and writes to the default streams. -/
def cmdFlagsOnly : ConfigCommand :=
  { yamlFile := [], flagsFile := str "flags.txt", outYAMLFile := [], outFlagsFile := [],
    outNoticesFile := [] }

/-- A command with no input and no output path. -/
def cmdEmpty : ConfigCommand :=
  { yamlFile := [], flagsFile := [], outYAMLFile := [], outFlagsFile := [],
    outNoticesFile := [] }

/-- A command whose YAML goes to the file `out.yaml`, the rest to the streams. -/
def cmdYAMLOut : ConfigCommand :=
  { yamlFile := str "in.yaml", flagsFile := [], outYAMLFile := str "out.yaml",
    outFlagsFile := [], outNoticesFile := [] }

/-- A command with a file for each of the three outputs. -/
def cmdAllOut : ConfigCommand :=
  { yamlFile := str "in.yaml", flagsFile := [], outYAMLFile := str "out.yaml",
    outFlagsFile := str "out.flags", outNoticesFile := str "out.notices" }

/-- A conversion engine that always removes the field `foo` and returns the
flag `--baz`. -/
def convertStub (_ : GoString) (_ : List GoString) :
    Except Err (GoString × List GoString × ConversionNotices) :=
  .ok (str "new: config", [str "--baz"], noticesFoo)

/-! ## Splitting and joining -/

theorem stringsIndex_none {s : GoString} {sep : Byte} (h : stringsIndex s sep = none) :
    List.splitOn sep s = [s] ∧ stringsCount s sep = 0 := by
  induction s with
  | nil => simp [stringsCount, List.splitOn]
  | cons b rest ih =>
    simp only [stringsIndex] at h
    split at h
    · simp at h
    · rename_i hb
      simp only [Option.map_eq_none'] at h
      obtain ⟨h1, h2⟩ := ih h
      refine ⟨?_, by simp [stringsCount, hb, h2]⟩
      simp only [List.splitOn] at h1 ⊢
      rw [List.splitOnP_cons, h1]
      simp [hb]

theorem stringsIndex_some {s : GoString} {sep : Byte} {m : Nat}
    (h : stringsIndex s sep = some m) :
    List.splitOn sep s = s.take m :: List.splitOn sep (s.drop (m + 1)) ∧
      stringsCount s sep = stringsCount (s.drop (m + 1)) sep + 1 := by
  induction s generalizing m with
  | nil => simp [stringsIndex] at h
  | cons b rest ih =>
    simp only [stringsIndex] at h
    split at h
    · rename_i hb
      simp only [Option.some.injEq] at h
      subst h
      simp only [List.splitOn] at ih ⊢
      rw [List.splitOnP_cons]
      simp [hb, stringsCount, Nat.add_comm]
    · rename_i hb
      simp only [Option.map_eq_some'] at h
      obtain ⟨k, hk, rfl⟩ := h
      obtain ⟨h1, h2⟩ := ih hk
      simp only [List.splitOn] at h1 ⊢
      rw [List.splitOnP_cons, h1]
      simp [hb, stringsCount, h2]

theorem stringsCount_zero {s : GoString} {sep : Byte} (h : stringsCount s sep = 0) :
    stringsIndex s sep = none := by
  induction s with
  | nil => rfl
  | cons b rest ih =>
    simp only [stringsCount] at h
    have hb : ¬ b = sep := by
      intro hb
      simp [hb] at h
    have hr : stringsCount rest sep = 0 := by omega
    simp [stringsIndex, hb, ih hr]

theorem genSplitLoop_eq (sep : Byte) (k : Nat) (s : GoString) (a : List GoString)
    (h : stringsCount s sep ≤ k) :
    genSplitLoop sep k s a = a ++ List.splitOn sep s := by
  induction k generalizing s a with
  | zero =>
    have h0 : stringsCount s sep = 0 := by omega
    simp [genSplitLoop, (stringsIndex_none (stringsCount_zero h0)).1]
  | succ k ih =>
    simp only [genSplitLoop]
    cases hi : stringsIndex s sep with
    | none => simp [(stringsIndex_none hi).1]
    | some m =>
      obtain ⟨h1, h2⟩ := stringsIndex_some hi
      simp only []
      rw [ih _ _ (by omega), h1]
      simp

/-- Go's `strings.Split` on one byte is the library's `List.splitOn`. -/
theorem stringsSplit_eq_splitOn (s : GoString) (sep : Byte) :
    stringsSplit s sep = List.splitOn sep s :=
  by simpa [stringsSplit] using genSplitLoop_eq sep (stringsCount s sep) s [] (Nat.le_refl _)

theorem foldl_join (sep : Byte) (rest : List GoString) (e : GoString) :
    rest.foldl (fun b s => b ++ [sep] ++ s) e = e ++ (rest.map (fun s => sep :: s)).flatten := by
  induction rest generalizing e with
  | nil => simp
  | cons x xs ih =>
    simp only [List.foldl_cons]
    rw [ih]
    simp

/-- Go's `strings.Join` with one byte is the library's `List.intercalate`. -/
theorem stringsJoin_eq_intercalate (elems : List GoString) (sep : Byte) :
    stringsJoin elems sep = [sep].intercalate elems := by
  cases elems with
  | nil => simp [stringsJoin, List.intercalate]
  | cons e rest =>
    simp only [stringsJoin, foldl_join, List.intercalate]
    induction rest generalizing e with
    | nil => simp
    | cons x xs ih =>
      simp only [List.map_cons, List.flatten_cons, List.intersperse_cons₂]
      rw [← ih x]
      simp

theorem stringsJoin_stringsSplit (s : GoString) (sep : Byte) :
    stringsJoin (stringsSplit s sep) sep = s := by
  rw [stringsJoin_eq_intercalate, stringsSplit_eq_splitOn]
  exact List.intercalate_splitOn _ sep

theorem splitOn_append_sep (s : GoString) (sep : Byte) :
    List.splitOn sep (s ++ [sep]) = List.splitOn sep s ++ [[]] := by
  induction s with
  | nil => simp [List.splitOn, List.splitOnP_cons]
  | cons b rest ih =>
    simp only [List.splitOn] at ih ⊢
    rw [List.cons_append, List.splitOnP_cons, List.splitOnP_cons, ih]
    split
    · simp
    · cases h : List.splitOnP (fun x => x == sep) rest with
      | nil => exact absurd h (List.splitOnP_ne_nil _ _)
      | cons x xs => simp

/-! ## Rendering the notices -/

theorem foldl_append_flatMap {α : Type} (f : α → GoString) (l : List α) (init : GoString) :
    l.foldl (fun buf x => buf ++ f x) init = init ++ l.flatMap f := by
  induction l generalizing init with
  | nil => simp
  | cons x xs ih =>
    simp only [List.foldl_cons, List.flatMap_cons]
    rw [ih]
    simp

theorem noticesBuffer_eq (notices : ConversionNotices) :
    noticesBuffer notices =
      notices.RemovedParameters.flatMap
          (fun p => str "field " ++ p ++ str " is no longer supported\n") ++
        notices.RemovedCLIFlags.flatMap
          (fun f => str "flag -" ++ f ++ str " is no longer supported\n") ++
        notices.ChangedDefaults.flatMap changedDefaultLine := by
  simp only [noticesBuffer, foldl_append_flatMap, List.nil_append]

theorem writeNotices_trace (env : Env) (notices : ConversionNotices) (w : Writer) (t : Trace) :
    (writeNotices env notices w t).2 =
      if noticesBuffer notices = [] then t
      else t ++ [.write w (noticesBuffer notices) (accepted env t w (noticesBuffer notices))] := by
  simp only [writeNotices, bufferWriteTo, fileWrite, accepted]
  by_cases hb : noticesBuffer notices = []
  · simp [hb]
  · have hlen : (noticesBuffer notices).length > 0 := List.length_pos.mpr hb
    simp only [hlen, hb, if_true, if_false]
    cases hw : env.write t w (noticesBuffer notices) with
    | none => simp
    | some r => simp

theorem writeNotices_error (env : Env) (notices : ConversionNotices) (w : Writer) (t : Trace) :
    (writeNotices env notices w t).1 =
      if noticesBuffer notices = [] then none
      else writeError env t w (noticesBuffer notices) := by
  simp only [writeNotices, bufferWriteTo, fileWrite, writeError]
  by_cases hb : noticesBuffer notices = []
  · simp [hb]
  · have hlen : (noticesBuffer notices).length > 0 := List.length_pos.mpr hb
    simp only [hlen, hb, if_true, if_false]
    cases hw : env.write t w (noticesBuffer notices) with
    | none => simp
    | some r => simp

/-- C3: for every NoticeSet, what `writeNotices` sends to its writer is the
concatenation of one line `field <p> is no longer supported` per removed
parameter, then one line `flag -<f> is no longer supported` per removed flag,
then one line `using a new default for <path>: <new> (used to be <old>)` per
changed default (an empty new or old default shown as `<empty>`), each group in
the order of the NoticeSet and each line ended by a newline: a text that is not
empty is sent in one `Write`, and for an empty text, so for the empty NoticeSet,
nothing is sent. -/
theorem writeNotices_sends_rendered_text (env : Env) (notices : ConversionNotices)
    (w : Writer) (t : Trace) :
    let text : GoString :=
      notices.RemovedParameters.flatMap
          (fun p => str "field " ++ p ++ str " is no longer supported\n") ++
        notices.RemovedCLIFlags.flatMap
          (fun f => str "flag -" ++ f ++ str " is no longer supported\n") ++
        notices.ChangedDefaults.flatMap
          (fun d => str "using a new default for " ++ d.Path ++ str ": " ++
            (if d.NewDefault = [] then str "<empty>" else d.NewDefault) ++
            str " (used to be " ++
            (if d.OldDefault = [] then str "<empty>" else d.OldDefault) ++ str ")\n")
    (writeNotices env notices w t).2 =
        (if text = [] then t else t ++ [.write w text (accepted env t w text)]) ∧
      (writeNotices env
        { RemovedParameters := [], RemovedCLIFlags := [], ChangedDefaults := [] } w t).2 = t := by
  intro text
  have htext : noticesBuffer notices = text := by
    rw [noticesBuffer_eq]
    rfl
  refine ⟨?_, ?_⟩
  · rw [writeNotices_trace, htext]
  · rw [writeNotices_trace]
    simp [noticesBuffer]

theorem splitOn_line (l rest : GoString) (h : nl ∉ l) :
    List.splitOn nl (l ++ nl :: rest) = l :: List.splitOn nl rest := by
  simp only [List.splitOn]
  refine List.splitOnP_first _ _ ?_ nl (by simp) rest
  intro x hx hxn
  have : x = nl := by simpa using hxn
  exact h (this ▸ hx)

theorem shown_no_nl (d : GoString) (h : nl ∉ d) :
    nl ∉ (if d = [] then str "<empty>" else d) := by
  split
  · decide
  · exact h

/-- C4, counterexample: a NoticeSet with one entry in each category whose
removed parameter is named `a\nb` is rendered as four lines, not three. -/
theorem writeNotices_multiline_four_lines :
    writesOf (writeNotices envQuiet noticesMultiline .stderr []).2 =
        [(.stderr, noticesBuffer noticesMultiline)] ∧
      linesOf (noticesBuffer noticesMultiline) =
        [str "field a", str "b is no longer supported", str "flag -bar is no longer supported",
          str "using a new default for baz: <empty> (used to be <empty>)"] ∧
      ¬ (linesOf (noticesBuffer noticesMultiline)).length = 3 := by
  refine ⟨by decide, by decide, by decide⟩

/-- C4, amended: for every NoticeSet with exactly one entry in each category
and no newline in any of its strings, `writeNotices` sends one text of exactly
three lines, in the order removed parameter, removed flag, changed default, and
a new or old default that is the empty string is shown as `<empty>`. -/
theorem writeNotices_one_each_three_lines (env : Env) (w : Writer) (t : Trace)
    (p f path old new : GoString)
    (hp : nl ∉ p) (hf : nl ∉ f) (hpath : nl ∉ path) (hold : nl ∉ old) (hnew : nl ∉ new) :
    let notices : ConversionNotices :=
      { RemovedParameters := [p], RemovedCLIFlags := [f],
        ChangedDefaults := [{ Path := path, OldDefault := old, NewDefault := new }] }
    writesOf (writeNotices env notices w t).2 = writesOf t ++ [(w, noticesBuffer notices)] ∧
      linesOf (noticesBuffer notices) =
        [str "field " ++ p ++ str " is no longer supported",
          str "flag -" ++ f ++ str " is no longer supported",
          str "using a new default for " ++ path ++ str ": " ++
            (if new = [] then str "<empty>" else new) ++ str " (used to be " ++
            (if old = [] then str "<empty>" else old) ++ str ")"] := by
  intro notices
  have e1 : str " is no longer supported\n" = str " is no longer supported" ++ [nl] := by decide
  have e2 : str ")\n" = str ")" ++ [nl] := by decide
  have hbuf : noticesBuffer notices =
      (str "field " ++ p ++ str " is no longer supported") ++ nl ::
        ((str "flag -" ++ f ++ str " is no longer supported") ++ nl ::
          ((str "using a new default for " ++ path ++ str ": " ++
            (if new = [] then str "<empty>" else new) ++ str " (used to be " ++
            (if old = [] then str "<empty>" else old) ++ str ")") ++ nl :: [])) := by
    simp only [notices, noticesBuffer, changedDefaultLine, List.foldl_cons, List.foldl_nil,
      List.nil_append, e1, e2, List.append_assoc, List.cons_append]
  have hne : noticesBuffer notices ≠ [] := by
    rw [hbuf]
    simp
  have n1 : nl ∉ str "field " := by decide
  have n2 : nl ∉ str " is no longer supported" := by decide
  have n3 : nl ∉ str "flag -" := by decide
  have n4 : nl ∉ str "using a new default for " := by decide
  have n5 : nl ∉ str ": " := by decide
  have n6 : nl ∉ str " (used to be " := by decide
  have n7 : nl ∉ str ")" := by decide
  have n8 := shown_no_nl new hnew
  have n9 := shown_no_nl old hold
  refine ⟨?_, ?_⟩
  · rw [writeNotices_trace]
    simp [hne, writesOf, List.filterMap_append]
  · rw [hbuf, linesOf, splitOn_line _ _ (by simp [n1, n2, hp]),
      splitOn_line _ _ (by simp [n3, n2, hf]),
      splitOn_line _ _ (by simp [n4, n5, n6, n7, n8, n9, hpath])]
    simp [List.splitOn]

/-- C4, amended, at the NoticeSet `foo`, `bar`, `baz` with no old and no new
default. -/
theorem writeNotices_one_each_three_lines_witness :
    linesOf (noticesBuffer noticesOneEach) =
      [str "field foo is no longer supported", str "flag -bar is no longer supported",
        str "using a new default for baz: <empty> (used to be <empty>)"] :=
  (writeNotices_one_each_three_lines envQuiet .stderr [] (str "foo") (str "bar") (str "baz") [] []
    (by decide) (by decide) (by decide) (by decide) (by decide)).2

/-! ## Loading the inputs -/

/-- C5: when `yamlFile` and `flagsFile` are both the empty string,
`prepareInputs` returns the error `provide at least one of --config-file or
--flags-file` whatever the filesystem holds and makes no call at all (no file
is read), and `convertConfig` returns that error without any call either: no
read, no conversion, no open, no write. -/
theorem prepareInputs_no_input_no_call (env : Env)
    (Convert : GoString → List GoString →
      Except Err (GoString × List GoString × ConversionNotices))
    (c : ConfigCommand) (t : Trace) (hy : c.yamlFile = []) (hf : c.flagsFile = []) :
    prepareInputs env c t =
        (([], [], some (.new (str "provide at least one of --config-file or --flags-file"))),
          t) ∧
      convertConfig env Convert c t =
        (some (.plain (.new (str "provide at least one of --config-file or --flags-file"))),
          t) := by
  have h : prepareInputs env c t =
      (([], [], some (.new (str "provide at least one of --config-file or --flags-file"))),
        t) := by
    simp [prepareInputs, hy, hf]
  exact ⟨h, by simp [convertConfig, h]⟩

/-- C5 at the command without paths, in a world where every read would be
refused. -/
theorem prepareInputs_no_input_no_call_witness :
    (convertConfig envDenied convertStub cmdEmpty []).2 = [] :=
  congrArg Prod.snd
    (prepareInputs_no_input_no_call envDenied convertStub cmdEmpty [] (by decide) (by decide)).2

theorem prepareInputs_reads (env : Env) (c : ConfigCommand) (t : Trace)
    (h : ¬ (c.flagsFile = [] ∧ c.yamlFile = []))
    (hy : ∀ e, env.readFile t c.yamlFile = .error e → e.isNotExist = true)
    (hf : ∀ e, env.readFile (t ++ [.readFile c.yamlFile]) c.flagsFile = .error e →
      e.isNotExist = true) :
    prepareInputs env c t =
      (((match env.readFile t c.yamlFile with
          | .ok data => data
          | .error _ => []),
        (match env.readFile (t ++ [.readFile c.yamlFile]) c.flagsFile with
          | .ok content => if content.length > 1 then stringsSplit content nl else []
          | .error _ => []),
        none),
        t ++ [.readFile c.yamlFile] ++ [.readFile c.flagsFile]) := by
  simp only [prepareInputs, if_neg h, osReadFile]
  cases h1 : env.readFile t c.yamlFile with
  | error e =>
    have := hy e h1
    cases h2 : env.readFile (t ++ [.readFile c.yamlFile]) c.flagsFile with
    | error e2 =>
      have := hf e2 h2
      simp [errorsIsNotExist, *]
    | ok content => simp [errorsIsNotExist, *]
  | ok data =>
    cases h2 : env.readFile (t ++ [.readFile c.yamlFile]) c.flagsFile with
    | error e2 =>
      have := hf e2 h2
      simp [errorsIsNotExist, *]
    | ok content => simp [errorsIsNotExist, *]

/-- C6: with at least one input path set, a read of the YAML file that fails
with an error other than not-exist makes `prepareInputs` fail with that error
wrapped as `could not read config-file`, before the flags file is read; when
the YAML read did not fail so, a read of the flags file that fails with an error
other than not-exist makes it fail with that error wrapped as `could not read
flags-file`; and when neither read fails so, `prepareInputs` returns no error,
with empty YAML content for a YAML file that does not exist and an empty flag
sequence for a flags file that does not exist. -/
theorem prepareInputs_missing_or_unreadable (env : Env) (c : ConfigCommand) (t : Trace)
    (h : ¬ (c.flagsFile = [] ∧ c.yamlFile = [])) :
    (∀ e, env.readFile t c.yamlFile = .error e → e.isNotExist = false →
        prepareInputs env c t =
            (([], [], some (.wrap e (str "could not read config-file"))),
              t ++ [.readFile c.yamlFile]) ∧
          (Err.wrap e (str "could not read config-file")).Error =
            str "could not read config-file: " ++ e.Error) ∧
      (∀ e, (∀ e1, env.readFile t c.yamlFile = .error e1 → e1.isNotExist = true) →
        env.readFile (t ++ [.readFile c.yamlFile]) c.flagsFile = .error e →
        e.isNotExist = false →
        prepareInputs env c t =
            (([], [], some (.wrap e (str "could not read flags-file"))),
              t ++ [.readFile c.yamlFile] ++ [.readFile c.flagsFile]) ∧
          (Err.wrap e (str "could not read flags-file")).Error =
            str "could not read flags-file: " ++ e.Error) ∧
      ((∀ e1, env.readFile t c.yamlFile = .error e1 → e1.isNotExist = true) →
        (∀ e2, env.readFile (t ++ [.readFile c.yamlFile]) c.flagsFile = .error e2 →
          e2.isNotExist = true) →
        (prepareInputs env c t).1.2.2 = none ∧
          (∀ e1, env.readFile t c.yamlFile = .error e1 → (prepareInputs env c t).1.1 = []) ∧
          (∀ data, env.readFile t c.yamlFile = .ok data →
            (prepareInputs env c t).1.1 = data) ∧
          (∀ e2, env.readFile (t ++ [.readFile c.yamlFile]) c.flagsFile = .error e2 →
            (prepareInputs env c t).1.2.1 = [])) := by
  have hs1 : str "could not read config-file: " = str "could not read config-file" ++ str ": " := by
    decide
  have hs2 : str "could not read flags-file: " = str "could not read flags-file" ++ str ": " := by
    decide
  refine ⟨?_, ?_, ?_⟩
  · intro e he hne
    refine ⟨?_, by simp [Err.Error, hs1]⟩
    simp [prepareInputs, if_neg h, osReadFile, he, errorsIsNotExist, errorsWrap, hne]
  · intro e hy he hne
    refine ⟨?_, by simp [Err.Error, hs2]⟩
    simp only [prepareInputs, if_neg h, osReadFile]
    cases h1 : env.readFile t c.yamlFile with
    | error e1 =>
      have := hy e1 h1
      simp [errorsIsNotExist, errorsWrap, *]
    | ok data => simp [errorsIsNotExist, errorsWrap, *]
  · intro hy hf
    rw [prepareInputs_reads env c t h hy hf]
    refine ⟨rfl, ?_, ?_, ?_⟩
    · intro e1 h1
      simp [h1]
    · intro data h1
      simp [h1]
    · intro e2 h2
      simp [h2]

/-- C6 in a world where no file exists, where the command that names only
`flags.txt` gets empty YAML, no flag and no error, and in a world where every
read is refused, where the command that names `in.yaml` fails on it. -/
theorem prepareInputs_missing_or_unreadable_witness :
    ((prepareInputs envQuiet cmdFlagsOnly []).1.2.2 = none ∧
        (prepareInputs envQuiet cmdFlagsOnly []).1.1 = [] ∧
        (prepareInputs envQuiet cmdFlagsOnly []).1.2.1 = []) ∧
      (prepareInputs envDenied cmdYAMLOut []).1.2.2 =
        some (.wrap (.sys (str "permission denied") false) (str "could not read config-file")) :=
  have h := (prepareInputs_missing_or_unreadable envQuiet cmdFlagsOnly [] (by decide)).2.2
    (fun _ h1 => by cases h1; rfl) (fun _ h2 => by cases h2; rfl)
  have k := ((prepareInputs_missing_or_unreadable envDenied cmdYAMLOut [] (by decide)).1
    (.sys (str "permission denied") false) rfl rfl).1
  ⟨⟨h.1, h.2.1 _ rfl, h.2.2.2 _ rfl⟩, by rw [k]⟩

/-- C7: for the content that `prepareInputs` reads from the flags file, content
of at most one byte, so content that is only a newline, gives the empty flag
sequence (not the sequence of one empty string), and longer content gives the
content split at the newlines, the pieces in the order of the file. -/
theorem prepareInputs_flags_split (env : Env) (c : ConfigCommand) (t : Trace)
    (content : GoString)
    (h : ¬ (c.flagsFile = [] ∧ c.yamlFile = []))
    (hy : ∀ e, env.readFile t c.yamlFile = .error e → e.isNotExist = true)
    (hf : env.readFile (t ++ [.readFile c.yamlFile]) c.flagsFile = .ok content) :
    (content.length ≤ 1 →
        (prepareInputs env c t).1.2.1 = [] ∧ (prepareInputs env c t).1.2.1 ≠ [[]]) ∧
      (content = [nl] → (prepareInputs env c t).1.2.1 = []) ∧
      (1 < content.length →
        (prepareInputs env c t).1.2.1 = stringsSplit content nl ∧
          (prepareInputs env c t).1.2.1 = List.splitOn nl content) := by
  have hf2 : ∀ e, env.readFile (t ++ [.readFile c.yamlFile]) c.flagsFile = .error e →
      e.isNotExist = true := by
    intro e he
    rw [hf] at he
    cases he
  rw [prepareInputs_reads env c t h hy hf2]
  simp only [hf]
  refine ⟨?_, ?_, ?_⟩
  · intro hlen
    have : ¬ content.length > 1 := by omega
    simp [this]
  · intro hc
    subst hc
    simp
  · intro hlen
    simp [hlen, stringsSplit_eq_splitOn]

/-- C7 at the flags file `-a=1\n`, which holds one flag and a final newline. -/
theorem prepareInputs_flags_split_witness :
    (prepareInputs envFull cmdFlagsOnly []).1.2.1 = stringsSplit (str "-a=1\n") nl :=
  ((prepareInputs_flags_split envFull cmdFlagsOnly [] (str "-a=1\n") (by decide)
    (fun _ h1 => by cases h1; rfl) rfl).2.2 (by decide)).1

/-- C10: for flags-file content longer than one byte, joining the flags that
`prepareInputs` returns with newlines gives back the content, so content that
ends with a newline gives a sequence whose last element is the empty string, as
does `-a=1\n`, split into `-a=1` and the empty string. -/
theorem prepareInputs_flags_join_roundtrip (env : Env) (c : ConfigCommand) (t : Trace)
    (content : GoString)
    (h : ¬ (c.flagsFile = [] ∧ c.yamlFile = []))
    (hy : ∀ e, env.readFile t c.yamlFile = .error e → e.isNotExist = true)
    (hf : env.readFile (t ++ [.readFile c.yamlFile]) c.flagsFile = .ok content)
    (hlen : 1 < content.length) :
    stringsJoin (prepareInputs env c t).1.2.1 nl = content ∧
      (∀ s, content = s ++ [nl] → (prepareInputs env c t).1.2.1.getLast? = some []) ∧
      (prepareInputs envFull cmdFlagsOnly []).1.2.1 = [str "-a=1", []] := by
  have hf2 : ∀ e, env.readFile (t ++ [.readFile c.yamlFile]) c.flagsFile = .error e →
      e.isNotExist = true := by
    intro e he
    rw [hf] at he
    cases he
  rw [prepareInputs_reads env c t h hy hf2]
  simp only [hf, hlen, gt_iff_lt, if_true]
  refine ⟨stringsJoin_stringsSplit content nl, ?_, by decide⟩
  intro s hs
  rw [stringsSplit_eq_splitOn, hs, splitOn_append_sep]
  simp

/-- C10 at the flags file `-a=1\n`: the flags joined with newlines are the file
content again. -/
theorem prepareInputs_flags_join_roundtrip_witness :
    stringsJoin (prepareInputs envFull cmdFlagsOnly []).1.2.1 nl = str "-a=1\n" :=
  (prepareInputs_flags_join_roundtrip envFull cmdFlagsOnly [] (str "-a=1\n") (by decide)
    (fun _ h1 => by cases h1; rfl) rfl (by decide)).1

/-! ## Writing the outputs -/

theorem fileWrite_eq (env : Env) (w : Writer) (p : GoString) (t : Trace) :
    fileWrite env w p t =
      ((accepted env t w p, writeError env t w p), t ++ [.write w p (accepted env t w p)]) := by
  simp only [fileWrite, accepted, writeError]
  cases env.write t w p with
  | none => rfl
  | some r => rfl

theorem closeFn_eq (env : Env) (fd : Nat) (t : Trace) :
    closeFn env fd t = t ++ .close fd :: closeDiag env fd t := by
  simp only [closeFn, closeDiag, fmtFprint, fileWrite_eq]
  cases env.close t fd with
  | none => rfl
  | some err => simp

theorem openFile_cases (env : Env) (path : GoString) (d : Writer) (t : Trace) :
    (path = [] ∧ openFile env path d t = (.ok (d, fun t => t), t)) ∨
      (∃ e, path ≠ [] ∧ env.openFile t path = some e ∧
        openFile env path d t =
          (.error (.wrap e (str "could not open " ++ path)), t ++ [.openFile path none])) ∨
      (path ≠ [] ∧ env.openFile t path = none ∧
        openFile env path d t =
          (.ok (.file t.length, closeFn env t.length),
            t ++ [.openFile path (some t.length)])) := by
  by_cases hp : path = []
  · exact Or.inl ⟨hp, by simp [openFile, hp]⟩
  · cases ho : env.openFile t path with
    | some e => exact Or.inr (Or.inl ⟨e, hp, rfl, by simp [openFile, hp, ho]⟩)
    | none => exact Or.inr (Or.inr ⟨hp, rfl, by simp [openFile, hp, ho]⟩)

theorem multierrorNew_eq (errs : List (Option Err)) :
    multierrorNew errs = errs.filterMap id := by
  have h : ∀ (l : List (Option Err)) (init : List Err),
      l.foldl (fun merr e => match e with
        | none => merr
        | some err => merr ++ [err]) init = init ++ l.filterMap id := by
    intro l
    induction l with
    | nil => simp
    | cons x xs ih =>
      intro init
      cases x with
      | none => simp [ih]
      | some e => simp [ih]
  simpa [multierrorNew] using h errs []

theorem count_reverse_nodup (l : List Nat) (h : l.Nodup) (fd : Nat) :
    l.reverse.count fd = if fd ∈ l then 1 else 0 := by
  rw [List.count_reverse]
  split
  · rename_i hm
    exact List.count_eq_one_of_mem h hm
  · rename_i hm
    exact List.count_eq_zero_of_not_mem hm

theorem closedFds_append (a b : Trace) : closedFds (a ++ b) = closedFds a ++ closedFds b := by
  simp [closedFds, List.filterMap_append]

theorem openedFds_append (a b : Trace) : openedFds (a ++ b) = openedFds a ++ openedFds b := by
  simp [openedFds, List.filterMap_append]

theorem closedFds_cons (ev : Event) (l : Trace) :
    closedFds (ev :: l) =
      (match ev with
        | .close fd => [fd]
        | _ => []) ++ closedFds l := by
  cases ev <;> simp [closedFds]

theorem openedFds_cons (ev : Event) (l : Trace) :
    openedFds (ev :: l) =
      (match ev with
        | .openFile _ (some fd) => [fd]
        | _ => []) ++ openedFds l := by
  cases ev with
  | openFile path fd => cases fd <;> simp [openedFds]
  | _ => simp [openedFds]

theorem closedFds_closeDiag (env : Env) (fd : Nat) (t : Trace) :
    closedFds (closeDiag env fd t) = [] := by
  simp only [closeDiag]
  cases env.close t fd <;> simp [closedFds]

theorem openedFds_closeDiag (env : Env) (fd : Nat) (t : Trace) :
    openedFds (closeDiag env fd t) = [] := by
  simp only [closeDiag]
  cases env.close t fd <;> simp [openedFds]

theorem mem_closeDiag (env : Env) (fd : Nat) (t : Trace) (ev : Event)
    (h : ev ∈ closeDiag env fd t) : ev.isStderrWrite = true := by
  simp only [closeDiag] at h
  cases hc : env.close t fd with
  | none => simp [hc] at h
  | some err =>
    simp only [hc, List.mem_singleton] at h
    subst h
    rfl

theorem closedFds_nil : closedFds [] = [] := rfl

theorem openedFds_nil : openedFds [] = [] := rfl

theorem isClose_close (fd : Nat) : (Event.close fd).isClose = true := rfl

theorem isClose_write (w : Writer) (p : GoString) (n : Nat) :
    (Event.write w p n).isClose = false := rfl

theorem isClose_openFile (path : GoString) (fd : Option Nat) :
    (Event.openFile path fd).isClose = false := rfl

theorem closeDiag_all (env : Env) (fd : Nat) (t : Trace) :
    (closeDiag env fd t).all (fun ev => ev.isClose || ev.isStderrWrite) = true := by
  simp only [closeDiag]
  cases env.close t fd <;> simp [Event.isClose, Event.isStderrWrite]

theorem received_append (w : Writer) (a b : Trace) :
    received w (a ++ b) = received w a ++ received w b := by
  simp [received, List.flatMap_append]

theorem received_cons (w : Writer) (ev : Event) (l : Trace) :
    received w (ev :: l) =
      (match ev with
        | .write w2 p n => if w2 = w then p.take n else []
        | _ => []) ++ received w l := by
  simp [received, List.flatMap_cons]

theorem received_nil (w : Writer) : received w [] = [] := rfl

theorem received_closeDiag (env : Env) (fd : Nat) (t : Trace) (w : Writer)
    (h : w ≠ .stderr) : received w (closeDiag env fd t) = [] := by
  simp only [closeDiag]
  cases env.close t fd with
  | none => rfl
  | some err =>
    have : ¬ Writer.stderr = w := fun h2 => h h2.symm
    simp [received, this]

theorem multierrorErr_ne_plain (es : List Err) (e : Err) :
    multierrorErr es ≠ some (.plain e) := by
  simp only [multierrorErr]
  split <;> simp

theorem accepted_close (env : Env) (close2 : Trace → Nat → Option Err) :
    accepted { env with close := close2 } = accepted env := rfl

theorem writeError_close (env : Env) (close2 : Trace → Nat → Option Err) :
    writeError { env with close := close2 } = writeError env := rfl

theorem openFile_cases_close (env : Env) (close2 : Trace → Nat → Option Err)
    (path : GoString) (d : Writer) (t : Trace) :
    (openFile env path d t = (.ok (d, fun t => t), t) ∧
        openFile { env with close := close2 } path d t = (.ok (d, fun t => t), t)) ∨
      (∃ e,
        openFile env path d t =
            (.error (.wrap e (str "could not open " ++ path)), t ++ [.openFile path none]) ∧
          openFile { env with close := close2 } path d t =
            (.error (.wrap e (str "could not open " ++ path)), t ++ [.openFile path none])) ∨
      (openFile env path d t =
          (.ok (.file t.length, closeFn env t.length),
            t ++ [.openFile path (some t.length)]) ∧
        openFile { env with close := close2 } path d t =
          (.ok (.file t.length, closeFn { env with close := close2 } t.length),
            t ++ [.openFile path (some t.length)])) := by
  by_cases hp : path = []
  · exact Or.inl ⟨by simp [openFile, hp], by simp [openFile, hp]⟩
  · cases ho : env.openFile t path with
    | some e =>
      exact Or.inr (Or.inl ⟨e, by simp [openFile, hp, ho], by simp [openFile, hp, ho]⟩)
    | none => exact Or.inr (Or.inr ⟨by simp [openFile, hp, ho], by simp [openFile, hp, ho]⟩)

theorem output_trace_shape (env : Env) (c : ConfigCommand) (yaml : GoString)
    (flags : List GoString) (notices : ConversionNotices) (t : Trace) :
    ∃ new, (output env c yaml flags notices t).2 = t ++ new ∧
      closedFds new = (openedFds new).reverse ∧ (openedFds new).Nodup ∧
      (new.dropWhile (fun ev => !ev.isClose)).all
        (fun ev => ev.isClose || ev.isStderrWrite) = true := by
  have H2 := openFile_cases env c.outFlagsFile .stdout
  have H3 := openFile_cases env c.outNoticesFile .stderr
  simp only [output]
  rcases openFile_cases env c.outYAMLFile .stdout t with
    ⟨-, h1⟩ | ⟨e1, -, -, h1⟩ | ⟨-, -, h1⟩ <;> rw [h1] <;> simp only [] <;>
  try (
    rcases H2 _ with ⟨-, h2⟩ | ⟨e2, -, -, h2⟩ | ⟨-, -, h2⟩ <;> rw [h2] <;> simp only [] <;>
    try (
      rcases H3 _ with ⟨-, h3⟩ | ⟨e3, -, -, h3⟩ | ⟨-, -, h3⟩ <;> rw [h3] <;>
      simp only [fmtFprintln, fileWrite_eq, writeNotices_trace]))
  all_goals try simp only [closeFn_eq]
  all_goals clear H2 H3
  all_goals (try split)
  all_goals refine ⟨_, by first | rfl | (simp only [List.append_assoc]; rfl), ?_⟩
  all_goals simp [closedFds_append, closedFds_cons, openedFds_append, openedFds_cons,
    closedFds_closeDiag, openedFds_closeDiag, closedFds_nil, openedFds_nil, List.dropWhile,
    isClose_close, isClose_write, isClose_openFile, closeDiag_all]

theorem output_result_close (env : Env) (close2 : Trace → Nat → Option Err)
    (c : ConfigCommand) (yaml : GoString) (flags : List GoString)
    (notices : ConversionNotices) (t : Trace) :
    (output { env with close := close2 } c yaml flags notices t).1 =
      (output env c yaml flags notices t).1 := by
  have H2 := openFile_cases_close env close2 c.outFlagsFile .stdout
  have H3 := openFile_cases_close env close2 c.outNoticesFile .stderr
  simp only [output]
  rcases openFile_cases_close env close2 c.outYAMLFile .stdout t with
    ⟨h1, k1⟩ | ⟨e1, h1, k1⟩ | ⟨h1, k1⟩ <;> rw [h1, k1] <;> simp only [] <;>
  try (
    rcases H2 _ with ⟨h2, k2⟩ | ⟨e2, h2, k2⟩ | ⟨h2, k2⟩ <;> rw [h2, k2] <;> simp only [] <;>
    try (
      rcases H3 _ with ⟨h3, k3⟩ | ⟨e3, h3, k3⟩ | ⟨h3, k3⟩ <;> rw [h3, k3] <;>
      simp only [fmtFprintln, fileWrite_eq, writeNotices_trace, writeNotices_error,
        accepted_close, writeError_close]))

/-- C9: in every run of `output`, whatever opens, writes and closes succeed or
fail, the files that were opened are closed, each exactly once and the last
opened first, before `output` returns; once the first file is closed only
closes and prints of close errors on `os.Stderr` follow, so each file is closed
after the writes; and the error that `output` returns does not depend on the
outcome of any close. -/
theorem output_closes_every_opened_file (env : Env) (c : ConfigCommand) (yaml : GoString)
    (flags : List GoString) (notices : ConversionNotices) (t : Trace) :
    ∃ new, (output env c yaml flags notices t).2 = t ++ new ∧
      closedFds new = (openedFds new).reverse ∧
      (∀ fd, (closedFds new).count fd = if fd ∈ openedFds new then 1 else 0) ∧
      (new.dropWhile (fun ev => !ev.isClose)).all
        (fun ev => ev.isClose || ev.isStderrWrite) = true ∧
      ∀ close2 : Trace → Nat → Option Err,
        (output { env with close := close2 } c yaml flags notices t).1 =
          (output env c yaml flags notices t).1 := by
  obtain ⟨new, h1, h2, h3, h4⟩ := output_trace_shape env c yaml flags notices t
  refine ⟨new, h1, h2, ?_, h4, ?_⟩
  · intro fd
    rw [h2]
    exact count_reverse_nodup _ h3 fd
  · intro close2
    exact output_result_close env close2 c yaml flags notices t

/-- C1, counterexample: when the YAML output file cannot be opened, while flags
and notices go to the default streams and every write succeeds, `output`
returns the open error at once: no write is made, so the flags text `-x` is not
delivered to standard output and the notice `field foo is no longer supported`
is not delivered to standard error. -/
theorem output_open_failure_skips_others :
    envDenied.openFile [] cmdYAMLOut.outYAMLFile = some (.sys (str "permission denied") false) ∧
      cmdYAMLOut.outFlagsFile = [] ∧ cmdYAMLOut.outNoticesFile = [] ∧
      output envDenied cmdYAMLOut (str "a: b") [str "-x"] noticesFoo [] =
        (some (.plain (.wrap (.sys (str "permission denied") false)
          (str "could not open out.yaml"))),
          [.openFile (str "out.yaml") none]) ∧
      writesOf (output envDenied cmdYAMLOut (str "a: b") [str "-x"] noticesFoo []).2 = [] ∧
      ¬ received .stdout (output envDenied cmdYAMLOut (str "a: b") [str "-x"] noticesFoo []).2 =
        stringsJoin [str "-x"] nl ++ [nl] ∧
      ¬ received .stderr (output envDenied cmdYAMLOut (str "a: b") [str "-x"] noticesFoo []).2 =
        noticesBuffer noticesFoo := by
  refine ⟨by decide, by decide, by decide, by decide, by decide, by decide, by decide⟩

/-- C1, amended: `output` opens its destinations in the order YAML, flags,
notices, and the first open that fails ends it: `output` returns that error
wrapped as `could not open <path>`, opens no later destination, writes none of
the three payloads (standard output and every file receive nothing), and runs
the close functions of the destinations opened before, the last opened first. -/
theorem output_stops_at_first_open_failure (env : Env) (c : ConfigCommand) (yaml : GoString)
    (flags : List GoString) (notices : ConversionNotices) (t : Trace) :
    (∀ e, c.outYAMLFile ≠ [] → env.openFile t c.outYAMLFile = some e →
        output env c yaml flags notices t =
          (some (.plain (.wrap e (str "could not open " ++ c.outYAMLFile))),
            t ++ [.openFile c.outYAMLFile none])) ∧
      (∀ e w1 cl1 t1, openFile env c.outYAMLFile .stdout t = (.ok (w1, cl1), t1) →
        c.outFlagsFile ≠ [] → env.openFile t1 c.outFlagsFile = some e →
        output env c yaml flags notices t =
          (some (.plain (.wrap e (str "could not open " ++ c.outFlagsFile))),
            cl1 (t1 ++ [.openFile c.outFlagsFile none]))) ∧
      (∀ e w1 cl1 t1 w2 cl2 t2, openFile env c.outYAMLFile .stdout t = (.ok (w1, cl1), t1) →
        openFile env c.outFlagsFile .stdout t1 = (.ok (w2, cl2), t2) →
        c.outNoticesFile ≠ [] → env.openFile t2 c.outNoticesFile = some e →
        output env c yaml flags notices t =
          (some (.plain (.wrap e (str "could not open " ++ c.outNoticesFile))),
            cl1 (cl2 (t2 ++ [.openFile c.outNoticesFile none])))) ∧
      ((∃ e, (output env c yaml flags notices t).1 = some (.plain e)) →
        received .stdout (output env c yaml flags notices t).2 = received .stdout t ∧
          ∀ fd, received (.file fd) (output env c yaml flags notices t).2 =
            received (.file fd) t) := by
  refine ⟨?_, ?_, ?_, ?_⟩
  · intro e hp ho
    have hf : openFile env c.outYAMLFile .stdout t =
        (.error (.wrap e (str "could not open " ++ c.outYAMLFile)),
          t ++ [.openFile c.outYAMLFile none]) := by
      simp [openFile, hp, ho]
    simp only [output, hf]
  · intro e w1 cl1 t1 h1 hp ho
    have hf : openFile env c.outFlagsFile .stdout t1 =
        (.error (.wrap e (str "could not open " ++ c.outFlagsFile)),
          t1 ++ [.openFile c.outFlagsFile none]) := by
      simp [openFile, hp, ho]
    simp only [output, h1, hf]
  · intro e w1 cl1 t1 w2 cl2 t2 h1 h2 hp ho
    have hf : openFile env c.outNoticesFile .stderr t2 =
        (.error (.wrap e (str "could not open " ++ c.outNoticesFile)),
          t2 ++ [.openFile c.outNoticesFile none]) := by
      simp [openFile, hp, ho]
    simp only [output, h1, h2, hf]
  · have H2 := openFile_cases env c.outFlagsFile .stdout
    have H3 := openFile_cases env c.outNoticesFile .stderr
    simp only [output]
    rcases openFile_cases env c.outYAMLFile .stdout t with
      ⟨-, h1⟩ | ⟨e1, -, -, h1⟩ | ⟨-, -, h1⟩ <;> rw [h1] <;> simp only [] <;>
    try (
      rcases H2 _ with ⟨-, h2⟩ | ⟨e2, -, -, h2⟩ | ⟨-, -, h2⟩ <;> rw [h2] <;> simp only [] <;>
      try (
        rcases H3 _ with ⟨-, h3⟩ | ⟨e3, -, -, h3⟩ | ⟨-, -, h3⟩ <;> rw [h3] <;> simp only []))
    all_goals clear H2 H3
    all_goals intro hplain
    all_goals first
      | (exfalso
         obtain ⟨e, he⟩ := hplain
         exact multierrorErr_ne_plain _ e he)
      | skip
    all_goals try simp only [closeFn_eq]
    all_goals simp [received_append, received_cons, received_nil, received_closeDiag]

/-- C1, amended, where only `out.flags` cannot be opened: `out.yaml` is opened,
the open of `out.flags` fails, `out.notices` is not tried, nothing is written
and `out.yaml` is closed. -/
theorem output_stops_at_first_open_failure_witness :
    output envFlagsOutDenied cmdAllOut (str "a: b") [str "-x"] noticesFoo [] =
      (some (.plain (.wrap (.sys (str "permission denied") false)
        (str "could not open " ++ str "out.flags"))),
        [.openFile (str "out.yaml") (some 0), .openFile (str "out.flags") none, .close 0]) :=
  (output_stops_at_first_open_failure envFlagsOutDenied cmdAllOut (str "a: b") [str "-x"]
    noticesFoo []).2.1 (.sys (str "permission denied") false) (.file 0)
    (closeFn envFlagsOutDenied 0) [.openFile (str "out.yaml") (some 0)] rfl (by decide) rfl

theorem multierror_none_iff (e1 e2 e3 : Option Err) :
    multierrorErr (multierrorNew [e1, e2, e3]) = none ↔ e1 = none ∧ e2 = none ∧ e3 = none := by
  rw [multierrorNew_eq]
  cases e1 <;> cases e2 <;> cases e3 <;> simp [multierrorErr]

/-- C2: once the three destinations are opened, `output` writes the YAML and a
newline to the first, then the flags joined by newlines and a newline to the
second, then runs `writeNotices` on the third, each after the one before and
whatever the outcome of the one before (`writeNotices` makes its one write
whenever the rendered text is not empty, and none, without an error, when it
is empty); only then the files are closed.  The returned error is nil exactly
when the three succeeded, and otherwise the multi-error of the errors of those
that failed, in that order: when only the YAML write fails, of that error alone. -/
theorem output_attempts_all_writes (env : Env) (c : ConfigCommand) (yaml : GoString)
    (flags : List GoString) (notices : ConversionNotices) (t t1 t2 t3 : Trace)
    (w1 w2 w3 : Writer) (cl1 cl2 cl3 : Trace → Trace)
    (h1 : openFile env c.outYAMLFile .stdout t = (.ok (w1, cl1), t1))
    (h2 : openFile env c.outFlagsFile .stdout t1 = (.ok (w2, cl2), t2))
    (h3 : openFile env c.outNoticesFile .stderr t2 = (.ok (w3, cl3), t3)) :
    let p1 := yaml ++ [nl]
    let p2 := stringsJoin flags nl ++ [nl]
    let p3 := noticesBuffer notices
    let ta := t3 ++ [.write w1 p1 (accepted env t3 w1 p1)]
    let tb := ta ++ [.write w2 p2 (accepted env ta w2 p2)]
    let e1 := writeError env t3 w1 p1
    let e2 := writeError env ta w2 p2
    let r3 := writeNotices env notices w3 tb
    (output env c yaml flags notices t).2 = cl1 (cl2 (cl3 r3.2)) ∧
      (p3 ≠ [] →
        r3 = (writeError env tb w3 p3, tb ++ [.write w3 p3 (accepted env tb w3 p3)])) ∧
      (p3 = [] → r3 = (none, tb)) ∧
      ((output env c yaml flags notices t).1 = none ↔ e1 = none ∧ e2 = none ∧ r3.1 = none) ∧
      (output env c yaml flags notices t).1 =
        (if [e1, e2, r3.1].filterMap id = [] then none
          else some (.multi ([e1, e2, r3.1].filterMap id))) ∧
      (∀ e, e1 = some e → e2 = none → r3.1 = none →
        (output env c yaml flags notices t).1 = some (.multi [e])) := by
  intro p1 p2 p3 ta tb e1 e2 r3
  have hres : (output env c yaml flags notices t).1 = multierrorErr (multierrorNew [e1, e2, r3.1]) := by
    simp only [output, h1, h2, h3, fmtFprintln, fileWrite_eq]
  have htr : (output env c yaml flags notices t).2 = cl1 (cl2 (cl3 r3.2)) := by
    simp only [output, h1, h2, h3, fmtFprintln, fileWrite_eq]
  have hr3 : r3 = ((writeNotices env notices w3 tb).1, (writeNotices env notices w3 tb).2) := rfl
  refine ⟨htr, ?_, ?_, ?_, ?_, ?_⟩
  · intro hne
    have hne2 : ¬ noticesBuffer notices = [] := hne
    rw [hr3, writeNotices_error, writeNotices_trace]
    simp [p3, hne2]
  · intro he
    have he2 : noticesBuffer notices = [] := he
    rw [hr3, writeNotices_error, writeNotices_trace]
    simp [he2]
  · rw [hres]
    exact multierror_none_iff e1 e2 r3.1
  · rw [hres, multierrorNew_eq]
    simp only [multierrorErr]
    by_cases hl : List.filterMap id [e1, e2, r3.1] = []
    · simp [hl]
    · have : ¬ (List.filterMap id [e1, e2, r3.1]).length = 0 := by
        simpa [List.length_eq_zero] using hl
      simp only [this, hl, if_false]
  · intro e he1 he2 he3
    rw [hres, multierrorNew_eq, he1, he2, he3]
    simp [multierrorErr]

/-- C2 where every write to a file fails and only the YAML goes to a file: the
flags and the notices are still written to the streams and the error is the
YAML write error alone. -/
theorem output_attempts_all_writes_witness :
    (output envFull cmdYAMLOut (str "a: b") [str "-x"] noticesFoo []).1 =
        some (.multi [.sys (str "no space left on device") false]) ∧
      writesOf (output envFull cmdYAMLOut (str "a: b") [str "-x"] noticesFoo []).2 =
        [(.file 0, str "a: b\n"), (.stdout, str "-x\n"),
          (.stderr, str "field foo is no longer supported\n"),
          (.stderr, str "input/output error")] :=
  ⟨(output_attempts_all_writes envFull cmdYAMLOut (str "a: b") [str "-x"] noticesFoo []
      [.openFile (str "out.yaml") (some 0)] [.openFile (str "out.yaml") (some 0)]
      [.openFile (str "out.yaml") (some 0)] (.file 0) .stdout .stderr (closeFn envFull 0)
      (fun t => t) (fun t => t) rfl rfl rfl).2.2.2.2.2
      (.sys (str "no space left on device") false) (by decide) (by decide) (by decide),
    by decide⟩

/-- C8: when no output path is configured and standard output and standard
error take every write, `output` returns no error and opens no file, standard
output receives the converted YAML and a newline and then the flags joined by
newlines and a newline, and standard error receives exactly the rendered
notices: for the NoticeSet whose only entry is the removed parameter `foo`,
the line `field foo is no longer supported`. -/
theorem output_default_streams (env : Env) (c : ConfigCommand) (yaml : GoString)
    (flags : List GoString) (notices : ConversionNotices) (t : Trace)
    (hY : c.outYAMLFile = []) (hF : c.outFlagsFile = []) (hN : c.outNoticesFile = [])
    (hout : ∀ t2 p, env.write t2 .stdout p = none)
    (herr : ∀ t2 p, env.write t2 .stderr p = none) :
    (output env c yaml flags notices t).1 = none ∧
      openAttempts (output env c yaml flags notices t).2 = openAttempts t ∧
      received .stdout (output env c yaml flags notices t).2 =
        received .stdout t ++ (yaml ++ [nl] ++ (stringsJoin flags nl ++ [nl])) ∧
      received .stderr (output env c yaml flags notices t).2 =
        received .stderr t ++ noticesBuffer notices ∧
      (notices = noticesFoo →
        received .stderr (output env c yaml flags notices t).2 =
          received .stderr t ++ str "field foo is no longer supported\n") := by
  have hacc1 : ∀ t2 p, accepted env t2 .stdout p = p.length := by
    intro t2 p
    simp [accepted, hout]
  have hacc2 : ∀ t2 p, accepted env t2 .stderr p = p.length := by
    intro t2 p
    simp [accepted, herr]
  have hwe1 : ∀ t2 p, writeError env t2 .stdout p = none := by
    intro t2 p
    simp [writeError, hout]
  have hwe2 : ∀ t2 p, writeError env t2 .stderr p = none := by
    intro t2 p
    simp [writeError, herr]
  have hres : (output env c yaml flags notices t).1 = none := by
    simp only [output, openFile, hY, hF, hN, if_true, fmtFprintln, fileWrite_eq,
      writeNotices_error, hwe1, hwe2]
    split <;> simp [multierrorNew, multierrorErr]
  have hstderr : received .stderr (output env c yaml flags notices t).2 =
      received .stderr t ++ noticesBuffer notices := by
    simp only [output, openFile, hY, hF, hN, if_true, fmtFprintln, fileWrite_eq,
      writeNotices_trace, hacc1, hacc2]
    split
    · rename_i hb
      simp [received_append, received_cons, received_nil, hb]
    · simp [received_append, received_cons, received_nil]
  refine ⟨hres, ?_, ?_, hstderr, ?_⟩
  · simp only [output, openFile, hY, hF, hN, if_true, fmtFprintln, fileWrite_eq,
      writeNotices_trace]
    split <;> simp [openAttempts, List.filterMap_append]
  · have htake : ∀ p : GoString, List.take (p.length + 1) (p ++ [nl]) = p ++ [nl] := by
      intro p
      exact List.take_of_length_le (by simp)
    simp only [output, openFile, hY, hF, hN, if_true, fmtFprintln, fileWrite_eq,
      writeNotices_trace, hacc1, hacc2]
    split <;> simp [received_append, received_cons, received_nil, htake]
  · intro hn
    rw [hstderr, hn]
    have : noticesBuffer noticesFoo = str "field foo is no longer supported\n" := by decide
    rw [this]

/-- C8 end to end: the YAML `foo: bar` and no flags file, a conversion that
removes the field `foo` and adds the flag `--baz`, and no output path. -/
theorem output_default_streams_witness :
    received .stderr (output envQuiet cmdFlagsOnly (str "new: config") [str "--baz"]
        noticesFoo []).2 = str "field foo is no longer supported\n" ∧
      received .stdout (output envQuiet cmdFlagsOnly (str "new: config") [str "--baz"]
        noticesFoo []).2 = str "new: config\n--baz\n" ∧
      (convertConfig envQuiet convertStub cmdFlagsOnly []).1 = none :=
  ⟨(output_default_streams envQuiet cmdFlagsOnly (str "new: config") [str "--baz"] noticesFoo
      [] rfl rfl rfl (fun _ _ => rfl) (fun _ _ => rfl)).2.2.2.2 rfl,
    by decide, by decide⟩

end Mimirtool
